import Mathlib

/-!
Verification of the staged autocomplete suggestion service (`src/main.py`).

The whole service is one pure request handler `autocomplete(q)` plus a
helper `find_matching_list(query_token, candidates, prefer_all)` over fixed
in-memory catalogs.  We embed the handler shallowly: strings become
`List Char`, Python's regex word-boundary searches (`\bfrom\b`, `\bto\b`,
and the keyword alternations) become an explicit leftmost scanner with the
same boundary semantics over ASCII word characters, and Python truthiness
of strings becomes `List.isEmpty`.  All queries appearing in the spec are
ASCII, so ASCII models of `str.lower`, `str.strip` and `\s` are faithful
on every input considered.
-/

namespace Autocomplete

/-- A suggestion, mirroring the pydantic model `Suggestion` of the
service: a display string plus an optional type tag. -/
structure Suggestion where
  display : String
  type : Option String
deriving DecidableEq

/-- ASCII model of Python's whitespace class `\s` (and of the characters
removed by `str.strip`): space, tab, newline, carriage return, vertical
tab and form feed. -/
def pyIsSpace (c : Char) : Bool :=
  c == ' ' || c == '\t' || c == '\n' || c == '\r' || c == '\x0b' || c == '\x0c'

/-- ASCII model of Python's word-character class `\w`, used by the `\b`
word-boundary assertion: letters, digits and underscore. -/
def isWordChar (c : Char) : Bool :=
  c.isAlpha || c.isDigit || c == '_'

/-- `s.lower()` on ASCII text: lower-case every character. -/
def lowerL (s : List Char) : List Char :=
  s.map Char.toLower

/-- Remove trailing whitespace (the right half of `str.strip`). -/
def rstripL (s : List Char) : List Char :=
  (s.reverse.dropWhile pyIsSpace).reverse

/-- `s.strip()`: remove leading and trailing whitespace. -/
def stripL (s : List Char) : List Char :=
  rstripL (s.dropWhile pyIsSpace)

/-- `s.startswith(pre)` for character lists. -/
def startsWithL (s pre : List Char) : Bool :=
  s.take pre.length == pre

/-- `pat in s`: `pat` occurs as a contiguous substring of `s`. -/
def containsSub (pat : List Char) : List Char → Bool
  | [] => pat.isEmpty
  | c :: t => startsWithL (c :: t) pat || containsSub pat t

/-- The `\b` assertion holds before the match when the previous character
(if any) is not a word character.  The patterns searched here all start
and end with word characters, so this is the full boundary condition. -/
def boundaryBefore : Option Char → Bool
  | none => true
  | some p => !isWordChar p

/-- The `\b` assertion holds after a match of `w` at the head of `s` when
the character following the match (if any) is not a word character. -/
def boundaryAfter (w s : List Char) : Bool :=
  match (s.drop w.length).head? with
  | none => true
  | some c => !isWordChar c

/-- Leftmost scan for `\b w \b` in the remaining text, carrying the
character immediately before the current position; on a hit, returns the
text after the matched word (what `re.split(pat, s, maxsplit=1)[1]` sees). -/
def firstWordSplit (w : List Char) (prev : Option Char) : List Char → Option (List Char)
  | [] => none
  | c :: t =>
    if boundaryBefore prev && startsWithL (c :: t) w && boundaryAfter w (c :: t) then
      some ((c :: t).drop w.length)
    else
      firstWordSplit w (some c) t

/-- `re.search(r"\b w \b", s) is not None`. -/
def hasWordL (w s : List Char) : Bool :=
  (firstWordSplit w none s).isSome

/-- `re.split(r"\b w \b", s, maxsplit=1)[1]`; the service only evaluates
this under a guard guaranteeing a match, so the `none` default is inert. -/
def afterWord (w s : List Char) : List Char :=
  (firstWordSplit w none s).getD []

/-- `re.search(r"\b(w1|w2|...)\b", s) is not None`: some alternative
occurs with word boundaries on both sides. -/
def hasAnyWordL (ws : List (List Char)) (s : List Char) : Bool :=
  ws.any (fun w => hasWordL w s)

/-- The `norm` helper of the service: `s.strip().lower()`. -/
def norm (s : List Char) : List Char :=
  lowerL (stripL s)

/-- `DEFAULT_LIMIT = 1`. -/
def DEFAULT_LIMIT : Nat := 1

/-- `find_matching_list(query_token, candidates, prefer_all)`: candidates
whose normalised display starts with the lower-cased token, with the
full list as fallback when the token is empty or nothing matches; the
default branch additionally slices to `max(len(candidates), DEFAULT_LIMIT)`. -/
def find_matching_list (query_token : List Char) (candidates : List Suggestion)
    (prefer_all : Bool) : List Suggestion :=
  if prefer_all then
    if query_token.isEmpty then candidates
    else
      let token := lowerL query_token
      let pref := candidates.filter (fun c => startsWithL (norm c.display.data) token)
      if pref.isEmpty then candidates else pref
  else
    if query_token.isEmpty then candidates.take (Nat.max candidates.length DEFAULT_LIMIT)
    else
      let token := lowerL query_token
      let filtered := candidates.filter (fun c => startsWithL (norm c.display.data) token)
      if filtered.isEmpty then candidates else filtered

/-- The starter-phrase catalog `INITIAL_PHRASES`. -/
def INITIAL_PHRASES : List Suggestion :=
  [⟨"I want to book a", some "starter"⟩,
   ⟨"Book me a", some "starter"⟩,
   ⟨"Find me a", some "starter"⟩]

/-- The `SERVICES` catalog. -/
def SERVICES : List Suggestion :=
  [⟨"flight", some "service"⟩,
   ⟨"hotel", some "service"⟩]

/-- The `CONNECTORS` catalog. -/
def CONNECTORS : List Suggestion :=
  [⟨"from", some "connector"⟩,
   ⟨"to", some "connector"⟩]

/-- The `CITIES` catalog. -/
def CITIES : List Suggestion :=
  [⟨"Chhatrapati Shivaji Maharaj International Airport, Mumbai (BOM)", some "city"⟩,
   ⟨"Indira Gandhi International Airport, New Delhi (DEL)", some "city"⟩,
   ⟨"Kempegowda International Airport, Bengaluru (BLR)", some "city"⟩,
   ⟨"Chennai International Airport, Chennai (MAA)", some "city"⟩,
   ⟨"Goa Dabolim International Airport, Goa (GOI)", some "city"⟩]

/-- The `PEOPLE` catalog. -/
def PEOPLE : List Suggestion :=
  [⟨"1 adult", some "people"⟩,
   ⟨"2 adults", some "people"⟩,
   ⟨"1 child", some "people"⟩,
   ⟨"2 adults 1 child", some "people"⟩]

/-- The `SEATS` catalog. -/
def SEATS : List Suggestion :=
  [⟨"Window", some "seat"⟩,
   ⟨"Aisle", some "seat"⟩,
   ⟨"Middle", some "seat"⟩,
   ⟨"Any", some "seat"⟩]

/-- The `MEALS` catalog. -/
def MEALS : List Suggestion :=
  [⟨"Vegetarian", some "meal"⟩,
   ⟨"Non-vegetarian", some "meal"⟩,
   ⟨"Vegan", some "meal"⟩,
   ⟨"Kosher", some "meal"⟩,
   ⟨"Halal", some "meal"⟩,
   ⟨"No preference", some "meal"⟩]

/-- The lower-cased starter phrases tested by
`any(q_lower.startswith(s) for s in starters)`. -/
def startersL : List (List Char) :=
  ["i want to book a".data, "book me a".data, "find me a".data]

/-- The people-count keyword alternatives of `\b(adult|adults|child|children)\b`. -/
def peopleWords : List (List Char) :=
  ["adult".data, "adults".data, "child".data, "children".data]

/-- The seat keyword alternatives of `\b(window|aisle|middle|any)\b`. -/
def seatWords : List (List Char) :=
  ["window".data, "aisle".data, "middle".data, "any".data]

/-- The meal keyword alternatives of
`\b(vegetarian|non-vegetarian|vegan|kosher|halal|no preference)\b`. -/
def mealWords : List (List Char) :=
  ["vegetarian".data, "non-vegetarian".data, "vegan".data, "kosher".data,
   "halal".data, "no preference".data]

/-- `q_stripped = raw.strip()`. -/
def q_strippedF (raw : List Char) : List Char :=
  stripL raw

/-- `q_lower = raw.strip().lower()`. -/
def q_lowerF (raw : List Char) : List Char :=
  lowerL (stripL raw)

/-- The last maximal run of non-whitespace characters of `s`, read off the
reversed list. -/
def lastRun (s : List Char) : List Char :=
  (s.reverse.takeWhile (fun c => !pyIsSpace c)).reverse

/-- The current token: `re.search(r"(\S+)\s*$", raw)` captures the last
non-whitespace run (ignoring trailing whitespace, empty when there is
none), and `raw.endswith(" ")` — a literal space only — then forces it to
the empty token. -/
def currentTokenL (raw : List Char) : List Char :=
  if raw.getLast? == some ' ' then [] else lastRun (rstripL raw)

/-- `has_flight = "flight" in q_lower`. -/
def has_flightF (raw : List Char) : Bool :=
  containsSub "flight".data (q_lowerF raw)

/-- `has_hotel = "hotel" in q_lower`. -/
def has_hotelF (raw : List Char) : Bool :=
  containsSub "hotel".data (q_lowerF raw)

/-- `has_from = re.search(r"\bfrom\b", q_lower) is not None`. -/
def has_fromF (raw : List Char) : Bool :=
  hasWordL "from".data (q_lowerF raw)

/-- `has_to = re.search(r"\bto\b", q_lower) is not None`. -/
def has_toF (raw : List Char) : Bool :=
  hasWordL "to".data (q_lowerF raw)

/-- `after_from = re.split(r"\bfrom\b", q_lower, maxsplit=1)[1].strip()`. -/
def after_fromF (raw : List Char) : List Char :=
  stripL (afterWord "from".data (q_lowerF raw))

/-- `after_to = re.split(r"\bto\b", q_lower, maxsplit=1)[1].strip()`. -/
def after_toF (raw : List Char) : List Char :=
  stripL (afterWord "to".data (q_lowerF raw))

/-- Condition of the origin-city branch:
`not after_from or (current_token and after_from == current_token.lower())`. -/
def fromCityCond (raw : List Char) : Bool :=
  (after_fromF raw).isEmpty ||
    (!(currentTokenL raw).isEmpty && after_fromF raw == lowerL (currentTokenL raw))

/-- Condition of the `to`-connector branch: `after_from and not has_to`. -/
def fromToCond (raw : List Char) : Bool :=
  !(after_fromF raw).isEmpty && !has_toF raw

/-- Condition of the destination-city branch:
`not after_to or (current_token and after_to == current_token.lower())`. -/
def toCityCond (raw : List Char) : Bool :=
  (after_toF raw).isEmpty ||
    (!(currentTokenL raw).isEmpty && after_toF raw == lowerL (currentTokenL raw))

/-- `has_destination`: both `from` and `to` present and non-empty text
after the first `to` boundary. -/
def has_destinationF (raw : List Char) : Bool :=
  has_fromF raw && has_toF raw && !(after_toF raw).isEmpty

/-- `re.search(r"\b(adult|adults|child|children)\b", q_lower) is not None`. -/
def has_peopleF (raw : List Char) : Bool :=
  hasAnyWordL peopleWords (q_lowerF raw)

/-- `re.search(r"\b(window|aisle|middle|any)\b", q_lower) is not None`. -/
def has_seatF (raw : List Char) : Bool :=
  hasAnyWordL seatWords (q_lowerF raw)

/-- The meal keyword search over the lower-cased query. -/
def has_mealF (raw : List Char) : Bool :=
  hasAnyWordL mealWords (q_lowerF raw)

/-- `any(q_lower.startswith(s) for s in starters)`. -/
def startersAnyF (raw : List Char) : Bool :=
  startersL.any (fun s => startsWithL (q_lowerF raw) s)

/-- The staged rule chain of the `autocomplete` handler on the raw query
text.  Each early `return` of the Python handler becomes one branch of an
if-chain whose conditions are evaluated in the source's order, including
the fall-through cases of the nested `from` block. -/
def autocompleteL (raw : List Char) : List Suggestion :=
  if (q_strippedF raw).isEmpty then INITIAL_PHRASES
  else if startersAnyF raw && !has_flightF raw && !has_hotelF raw then
    find_matching_list (currentTokenL raw) SERVICES true
  else if has_flightF raw && !has_fromF raw then
    find_matching_list (currentTokenL raw) [⟨"from", some "connector"⟩] false
  else if has_fromF raw && fromCityCond raw then
    find_matching_list (currentTokenL raw) CITIES true
  else if has_fromF raw && fromToCond raw then
    find_matching_list (currentTokenL raw) [⟨"to", some "connector"⟩] false
  else if has_toF raw && toCityCond raw then
    find_matching_list (currentTokenL raw) CITIES true
  else if has_destinationF raw && !has_peopleF raw then
    find_matching_list (currentTokenL raw) PEOPLE true
  else if has_peopleF raw && !has_seatF raw then
    find_matching_list (currentTokenL raw) SEATS true
  else if has_seatF raw && !has_mealF raw then
    find_matching_list (currentTokenL raw) MEALS true
  else
    find_matching_list (currentTokenL raw) (SERVICES ++ CITIES) false

/-- `resolve(q)`: the handler on a query string. -/
def resolve (q : String) : List Suggestion :=
  autocompleteL q.data

/-- The HTTP-facing handler: `q` is optional and `q or ""` maps an absent
parameter to the empty string (and leaves every actual string unchanged,
since `"" or ""` is `""`). -/
def autocomplete (q : Option String) : List Suggestion :=
  autocompleteL (q.getD "").data

/-- The catalog and `prefer_all` flag the rule chain selects for a query:
each branch of `autocompleteL` returns `find_matching_list` of the current
token over exactly this pair (the empty-query branch returns the starter
catalog unfiltered, which coincides with filtering by the then-empty token). -/
def stageOf (raw : List Char) : List Suggestion × Bool :=
  if (q_strippedF raw).isEmpty then (INITIAL_PHRASES, true)
  else if startersAnyF raw && !has_flightF raw && !has_hotelF raw then (SERVICES, true)
  else if has_flightF raw && !has_fromF raw then ([⟨"from", some "connector"⟩], false)
  else if has_fromF raw && fromCityCond raw then (CITIES, true)
  else if has_fromF raw && fromToCond raw then ([⟨"to", some "connector"⟩], false)
  else if has_toF raw && toCityCond raw then (CITIES, true)
  else if has_destinationF raw && !has_peopleF raw then (PEOPLE, true)
  else if has_peopleF raw && !has_seatF raw then (SEATS, true)
  else if has_seatF raw && !has_mealF raw then (MEALS, true)
  else (SERVICES ++ CITIES, false)

/-- The subsequence of candidates whose normalised display starts with the
lower-cased token: the matching half of `find_matching_list`, before its
fallbacks. -/
def prefFilter (tok : List Char) (candidates : List Suggestion) : List Suggestion :=
  candidates.filter (fun c => startsWithL (norm c.display.data) (lowerL tok))

theorem dropWhile_head_false {α : Type} (p : α → Bool) (l : List α) {a : α} {t : List α}
    (h : l.dropWhile p = a :: t) : p a = false := by
  induction l with
  | nil => simp [List.dropWhile] at h
  | cons c cs ih =>
    rw [List.dropWhile_cons] at h
    by_cases hc : p c = true
    · rw [if_pos hc] at h
      exact ih h
    · rw [if_neg hc] at h
      injection h with h1 h2
      subst h1
      simpa using hc

theorem strip_all_space {raw : List Char} (h : stripL raw = []) :
    ∀ c ∈ raw, pyIsSpace c = true := by
  unfold stripL rstripL at h
  rw [List.reverse_eq_nil_iff, List.dropWhile_eq_nil_iff] at h
  intro c hc
  rw [← List.takeWhile_append_dropWhile pyIsSpace raw] at hc
  rcases List.mem_append.mp hc with h1 | h2
  · exact List.mem_takeWhile_imp h1
  · exact h c (List.mem_reverse.mpr h2)

theorem all_space_rstrip_nil {raw : List Char} (h : ∀ c ∈ raw, pyIsSpace c = true) :
    rstripL raw = [] := by
  unfold rstripL
  rw [List.reverse_eq_nil_iff, List.dropWhile_eq_nil_iff]
  intro x hx
  exact h x (List.mem_reverse.mp hx)

theorem currentToken_nil_of_strip_empty {raw : List Char}
    (h : (q_strippedF raw).isEmpty = true) : currentTokenL raw = [] := by
  have h' : stripL raw = [] := List.isEmpty_iff.mp h
  have hall := strip_all_space h'
  cases hb : (raw.getLast? == some ' ') with
  | true => simp [currentTokenL, hb]
  | false => simp [currentTokenL, hb, lastRun, all_space_rstrip_nil hall]

theorem take_max_self (l : List Suggestion) :
    l.take (Nat.max l.length DEFAULT_LIMIT) = l :=
  List.take_of_length_le (Nat.le_max_left _ _)

theorem fml_nil_token (candidates : List Suggestion) (pa : Bool) :
    find_matching_list [] candidates pa = candidates := by
  cases pa <;> simp [find_matching_list, take_max_self]

theorem prefFilter_nil_token (cands : List Suggestion) : prefFilter [] cands = cands := by
  unfold prefFilter
  apply List.filter_eq_self.mpr
  intro a _
  simp [startsWithL, lowerL]

theorem fml_eq_filter (tok : List Char) (cands : List Suggestion) (pa : Bool)
    (h : prefFilter tok cands ≠ []) :
    find_matching_list tok cands pa = prefFilter tok cands := by
  by_cases htok : tok.isEmpty = true
  · have ht : tok = [] := List.isEmpty_iff.mp htok
    subst ht
    rw [fml_nil_token, prefFilter_nil_token]
  · simp only [Bool.not_eq_true] at htok
    have hne : (prefFilter tok cands).isEmpty = false := by
      cases hpe : (prefFilter tok cands).isEmpty with
      | false => rfl
      | true => exact absurd (List.isEmpty_iff.mp hpe) h
    unfold prefFilter at hne ⊢
    cases pa <;> simp [find_matching_list, htok, hne]

set_option maxHeartbeats 1000000 in
theorem autocompleteL_eq_stage (raw : List Char) :
    autocompleteL raw =
      find_matching_list (currentTokenL raw) (stageOf raw).1 (stageOf raw).2 := by
  unfold autocompleteL stageOf
  split_ifs with h1 h2 h3 h4 h5 h6 h7 h8 h9
  · rw [currentToken_nil_of_strip_empty h1, fml_nil_token]
  all_goals rfl

/-- C1: on the query `"I want to book a flight from Mumbai to "` the code
does NOT return the city catalog: `re.split(r"\bto\b", ..., maxsplit=1)`
splits at the first `to` boundary — the `to` of `"I want to"` — so the
text after it is the non-empty `"book a flight from mumbai to"`, the
destination-city branch does not fire, and the people-count branch
returns the `PEOPLE` catalog instead. -/
theorem c1_code_returns_people :
    resolve "I want to book a flight from Mumbai to " = PEOPLE ∧
      resolve "I want to book a flight from Mumbai to " ≠ CITIES ∧
      after_toF "I want to book a flight from Mumbai to ".data =
        "book a flight from mumbai to".data := by
  refine ⟨rfl, by decide, rfl⟩

/-- C2, counterexample: the input `"a\t"` ends in the whitespace character
tab, yet the extracted current token is `"a"`, not the empty string — the
code only empties the token when the raw input ends in a literal space. -/
theorem c2_counterexample :
    "a\t".data.getLast? = some '\t' ∧ pyIsSpace '\t' = true ∧
      currentTokenL "a\t".data = "a".data ∧ currentTokenL "a\t".data ≠ [] := by
  refine ⟨rfl, rfl, rfl, by decide⟩

/-- C2, amended: the current token is the maximal trailing run of
non-whitespace characters of the raw input once trailing whitespace is
discarded — the raw input splits as that whitespace-free token preceded
by text ending in whitespace (or nothing), followed by trailing
whitespace — except that the token is forced to the empty string when the
raw input ends in the literal space character; an input ending in other
whitespace (tab, newline, ...) keeps the last word as its token. -/
theorem c2_token_amended (raw : List Char) :
    (raw.getLast? = some ' ' → currentTokenL raw = []) ∧
      (∀ c ∈ currentTokenL raw, pyIsSpace c = false) ∧
      (∃ w, raw = rstripL raw ++ w ∧ ∀ c ∈ w, pyIsSpace c = true) ∧
      (raw.getLast? ≠ some ' ' →
        ∃ p, rstripL raw = p ++ currentTokenL raw ∧
          (p = [] ∨ ∃ d, p.getLast? = some d ∧ pyIsSpace d = true)) := by
  refine ⟨?_, ?_, ?_, ?_⟩
  · intro h
    simp [currentTokenL, h]
  · intro c hc
    by_cases hb : (raw.getLast? == some ' ') = true
    · simp [currentTokenL, hb] at hc
    · simp only [Bool.not_eq_true] at hb
      simp only [currentTokenL, hb, Bool.false_eq_true, if_false, lastRun] at hc
      have := List.mem_takeWhile_imp (List.mem_reverse.mp hc)
      simpa using this
  · refine ⟨(raw.reverse.takeWhile pyIsSpace).reverse, ?_, ?_⟩
    · calc raw = raw.reverse.reverse := (List.reverse_reverse raw).symm
      _ = (raw.reverse.takeWhile pyIsSpace ++ raw.reverse.dropWhile pyIsSpace).reverse := by
          rw [List.takeWhile_append_dropWhile]
      _ = (raw.reverse.dropWhile pyIsSpace).reverse ++ (raw.reverse.takeWhile pyIsSpace).reverse := by
          rw [List.reverse_append]
      _ = rstripL raw ++ (raw.reverse.takeWhile pyIsSpace).reverse := rfl
    · intro c hc
      exact List.mem_takeWhile_imp (List.mem_reverse.mp hc)
  · intro h
    have hb : (raw.getLast? == some ' ') = false := by
      cases hbe : (raw.getLast? == some ' ') with
      | false => rfl
      | true => exact absurd (eq_of_beq hbe) h
    have htok : currentTokenL raw = lastRun (rstripL raw) := by
      simp [currentTokenL, hb]
    refine ⟨((rstripL raw).reverse.dropWhile (fun c => !pyIsSpace c)).reverse, ?_, ?_⟩
    · rw [htok]
      calc rstripL raw = (rstripL raw).reverse.reverse := (List.reverse_reverse _).symm
        _ = ((rstripL raw).reverse.takeWhile (fun c => !pyIsSpace c) ++
              (rstripL raw).reverse.dropWhile (fun c => !pyIsSpace c)).reverse := by
            rw [List.takeWhile_append_dropWhile]
        _ = ((rstripL raw).reverse.dropWhile (fun c => !pyIsSpace c)).reverse ++
              ((rstripL raw).reverse.takeWhile (fun c => !pyIsSpace c)).reverse := by
            rw [List.reverse_append]
        _ = ((rstripL raw).reverse.dropWhile (fun c => !pyIsSpace c)).reverse ++
              lastRun (rstripL raw) := rfl
    · cases hd : (rstripL raw).reverse.dropWhile (fun c => !pyIsSpace c) with
      | nil => left; simp [hd]
      | cons a t =>
        right
        refine ⟨a, ?_, ?_⟩
        · rw [List.getLast?_reverse]
          rfl
        · have := dropWhile_head_false (fun c => !pyIsSpace c) (rstripL raw).reverse hd
          simpa using this

/-- C2, witness for the amended statement: the space-terminated input
`"ab "` yields the empty token, and the input `"x y"` decomposes into a
whitespace-ended remainder followed by its current token. -/
theorem c2_token_amended_witness :
    currentTokenL "ab ".data = [] ∧
      ∃ p, rstripL "x y".data = p ++ currentTokenL "x y".data ∧
        (p = [] ∨ ∃ d, p.getLast? = some d ∧ pyIsSpace d = true) :=
  ⟨(c2_token_amended "ab ".data).1 (by decide),
   (c2_token_amended "x y".data).2.2.2 (by decide)⟩

/-- C3: for a non-empty token and non-empty candidate list, if no
candidate's normalised display starts with the lower-cased token then
`find_matching_list` falls back to the full candidate list, and its
result is never empty. -/
theorem c3_fallback_law (tok : List Char) (cands : List Suggestion) (pa : Bool)
    (htok : tok ≠ []) (hc : cands ≠ []) :
    ((∀ c ∈ cands, startsWithL (norm c.display.data) (lowerL tok) = false) →
        find_matching_list tok cands pa = cands) ∧
      find_matching_list tok cands pa ≠ [] := by
  have htok' : tok.isEmpty = false := by
    cases tok with
    | nil => exact absurd rfl htok
    | cons a t => rfl
  constructor
  · intro hno
    have hfil : cands.filter (fun c => startsWithL (norm c.display.data) (lowerL tok)) = [] :=
      List.filter_eq_nil_iff.mpr (fun a ha => by simp [hno a ha])
    cases pa <;> simp [find_matching_list, htok', hfil]
  · have key : ∀ l : List Suggestion, (if l.isEmpty = true then cands else l) ≠ [] := by
      intro l
      cases hl : l.isEmpty with
      | true => simpa [hl] using hc
      | false =>
        rw [if_neg (by simp [hl])]
        intro he
        rw [he] at hl
        simp at hl
    cases pa <;> simp only [find_matching_list, htok', Bool.false_eq_true, if_false,
      Bool.true_eq_false, if_true] <;> exact key _

/-- C3, witness: the token `"zz"` matches no service display, so the
filter falls back to the full `SERVICES` catalog, which is non-empty. -/
theorem c3_fallback_law_witness :
    find_matching_list "zz".data SERVICES false = SERVICES ∧
      find_matching_list "zz".data SERVICES false ≠ [] := by
  have h := c3_fallback_law "zz".data SERVICES false (by decide) (by decide)
  exact ⟨h.1 (by decide), h.2⟩

/-- C4: whenever the prefix filter of the extracted current token over
the catalog the rule chain selects is non-empty, the result of `resolve`
is exactly that filtered subsequence — in catalog order, a sublist of the
catalog — and every suggestion in it starts (after normalising case) with
the token. -/
theorem c4_filtered_result (q : String)
    (h : prefFilter (currentTokenL q.data) (stageOf q.data).1 ≠ []) :
    resolve q = prefFilter (currentTokenL q.data) (stageOf q.data).1 ∧
      (resolve q).Sublist (stageOf q.data).1 ∧
      ∀ s ∈ resolve q,
        startsWithL (norm s.display.data) (lowerL (currentTokenL q.data)) = true := by
  have he : resolve q = prefFilter (currentTokenL q.data) (stageOf q.data).1 := by
    rw [resolve, autocompleteL_eq_stage]
    exact fml_eq_filter _ _ _ h
  refine ⟨he, ?_, ?_⟩
  · rw [he]
    exact List.filter_sublist _
  · rw [he]
    intro s hs
    exact (List.mem_filter.mp hs).2

/-- C4, witness: for the query `"flig"` the fallback catalog is selected,
its filter by the token `"flig"` is non-empty, and `resolve` returns the
single matching flight service. -/
theorem c4_filtered_result_witness :
    prefFilter (currentTokenL "flig".data) (stageOf "flig".data).1 ≠ [] ∧
      resolve "flig" = [⟨"flight", some "service"⟩] := by
  have h : prefFilter (currentTokenL "flig".data) (stageOf "flig".data).1 ≠ [] := by decide
  exact ⟨h, ((c4_filtered_result "flig" h).1).trans (by decide)⟩

/-- C5: the word-boundary search for `to` does not match inside the word
`hotel` (which contains no `to` at all), and the query
`"I want to book a hotel"` does not reach the destination-city branch:
`resolve` returns the single `hotel` service from the fallback stage, not
the city catalog. -/
theorem c5_hotel_no_city_branch :
    hasWordL "to".data "hotel".data = false ∧
      resolve "I want to book a hotel" = [⟨"hotel", some "service"⟩] ∧
      resolve "I want to book a hotel" ≠ CITIES := by
  refine ⟨rfl, rfl, by decide⟩

/-- C6: for `"I want to book a flight from Mumbai to Delhi "` both `from`
and `to` are present with non-empty text after the first `to` boundary,
no people-count keyword occurs, and `resolve` returns the people-count
catalog. -/
theorem c6_destination_people :
    has_destinationF "I want to book a flight from Mumbai to Delhi ".data = true ∧
      has_peopleF "I want to book a flight from Mumbai to Delhi ".data = false ∧
      resolve "I want to book a flight from Mumbai to Delhi " = PEOPLE := by
  refine ⟨rfl, rfl, rfl⟩

/-- C7: a non-empty query whose lower-cased trimmed form begins with one
of the fixed starter phrases and contains neither the `flight` nor the
`hotel` keyword resolves to the services catalog filtered by the current
token. -/
theorem c7_starter_services (q : String) (hq : q ≠ "")
    (hs : startersAnyF q.data = true)
    (hf : has_flightF q.data = false) (hh : has_hotelF q.data = false) :
    resolve q = find_matching_list (currentTokenL q.data) SERVICES true := by
  have hql : q_lowerF q.data ≠ [] := by
    intro h0
    rcases List.any_eq_true.mp hs with ⟨s, hmem, hstart⟩
    rw [h0] at hstart
    fin_cases hmem <;> exact absurd hstart (by decide)
  have hne : ¬ (q_strippedF q.data).isEmpty = true := by
    intro h0
    apply hql
    have h1 : stripL q.data = [] := List.isEmpty_iff.mp h0
    simp [q_lowerF, h1, lowerL]
  rw [resolve]
  unfold autocompleteL
  rw [if_neg hne, if_pos (by simp [hs, hf, hh])]

/-- C7, witness: `resolve("I want to book a fl")` is the services catalog
filtered by the token `"fl"`, i.e. the single `flight` suggestion. -/
theorem c7_starter_services_witness :
    resolve "I want to book a fl" = [⟨"flight", some "service"⟩] := by
  have h := c7_starter_services "I want to book a fl" (by decide) (by decide)
    (by decide) (by decide)
  exact h.trans (by decide)

/-- C8: the empty query — and an absent `q` parameter, which defaults to
the empty string — resolves to exactly the full starter-phrase catalog in
declared order, unfiltered. -/
theorem c8_empty_initial :
    autocomplete none = INITIAL_PHRASES ∧
      autocomplete (some "") = INITIAL_PHRASES ∧
      resolve "" = INITIAL_PHRASES := by
  refine ⟨rfl, rfl, rfl⟩

/-- C9: `resolve` is a pure function of the query: two invocations of the
handler on the same `q` yield identical output sequences. -/
theorem c9_pure (q1 q2 : Option String) (h : q1 = q2) :
    autocomplete q1 = autocomplete q2 := by
  rw [h]

/-- C9, witness: two invocations on the query `"flight"` agree. -/
theorem c9_pure_witness :
    autocomplete (some "flight") = autocomplete (some "flight") :=
  c9_pure (some "flight") (some "flight") rfl

/-- C10: `prefer_all` has no observable effect — both modes of
`find_matching_list` agree on every token and candidate list — because the
default branch's slice `candidates[:max(len(candidates), DEFAULT_LIMIT)]`
always yields the whole list. -/
theorem c10_prefer_all_no_effect (tok : List Char) (cands : List Suggestion) :
    find_matching_list tok cands true = find_matching_list tok cands false ∧
      cands.take (Nat.max cands.length DEFAULT_LIMIT) = cands := by
  refine ⟨?_, take_max_self cands⟩
  cases htok : tok.isEmpty with
  | true => simp [find_matching_list, htok, take_max_self]
  | false => simp [find_matching_list, htok]

end Autocomplete
